import Mathlib

/-!
# SmartShell core: shallow embedding and verification

A shallow embedding of the command-translation and process-runner core of
`smartshell.py` (SmartShell AI).  Line numbers in the doc comments refer to
`src/smartshell.py`.  Pure Python functions become Lean functions; the
external model capability, the OS process, and the filesystem are passed in
explicitly as values describing their observable behaviour; exceptions become
`Except` values.
-/

namespace SmartShell

/-! ## Python string primitives

`str.strip()`, `str.lower()` and the `in` containment test, as used by
`translate` / `rule_based_translate` (lines 243-269).  `pyLowerChar` models
Python `str.lower` on the ASCII and Greek letters (the only alphabets
occurring in the rule table); locale-specific final-sigma handling is not
modelled. -/

/-- Characters removed by Python `str.strip()` (the common whitespace set). -/
def pyIsSpace (c : Char) : Bool :=
  c = ' ' || c = '\t' || c = '\n' || c = '\r' || c = '\x0b' || c = '\x0c'

def pyStripList (cs : List Char) : List Char :=
  ((cs.dropWhile pyIsSpace).reverse.dropWhile pyIsSpace).reverse

/-- Python `s.strip()`. -/
def pyStrip (s : String) : String := String.mk (pyStripList s.toList)

/-- Python `str.lower` for ASCII `A`-`Z` and Greek capitals (plain and
accented). -/
def pyLowerChar (c : Char) : Char :=
  if 'A' ≤ c ∧ c ≤ 'Z' then Char.ofNat (c.toNat + 32)
  else if c.toNat = 0x386 then Char.ofNat 0x3AC
  else if c.toNat = 0x388 then Char.ofNat 0x3AD
  else if c.toNat = 0x389 then Char.ofNat 0x3AE
  else if c.toNat = 0x38A then Char.ofNat 0x3AF
  else if c.toNat = 0x38C then Char.ofNat 0x3CC
  else if c.toNat = 0x38E then Char.ofNat 0x3CD
  else if c.toNat = 0x38F then Char.ofNat 0x3CE
  else if 0x391 ≤ c.toNat ∧ c.toNat ≤ 0x3A9 ∧ c.toNat ≠ 0x3A2 then
    Char.ofNat (c.toNat + 32)
  else c

/-- Python `s.lower()`. -/
def pyLower (s : String) : String := String.mk (s.toList.map pyLowerChar)

/-- `beginsWith hay needle`: `needle` is an initial segment of `hay`. -/
def beginsWith : List Char → List Char → Bool
  | _, [] => true
  | [], _ :: _ => false
  | a :: as, b :: bs => a == b && beginsWith as bs

/-- `occursIn needle hay`: `needle` occurs contiguously inside `hay`. -/
def occursIn (needle : List Char) : List Char → Bool
  | [] => needle.isEmpty
  | c :: rest => beginsWith (c :: rest) needle || occursIn needle rest

/-- Python `needle in hay` on strings. -/
def strContains (hay needle : String) : Bool := occursIn needle.toList hay.toList

/-! ## Translation strategies (lines 224-269) -/

/-- Which strategy produced a command (spec §4.2/§4.3). -/
inductive Strategy
  | Model
  | RuleBased
deriving DecidableEq

/-- The fixed rule table of `rule_based_translate` (lines 245-253), in
declared order.  Python 3.7+ `dict` iteration preserves insertion order. -/
def RULES : List (String × String) :=
  [("κάνε update", "sudo apt update && sudo apt upgrade -y"),
   ("άδειασε την cache", "sudo apt clean"),
   ("ip", "ip a"),
   ("upgrade", "sudo apt update && sudo apt upgrade -y"),
   ("install vlc", "sudo apt install -y vlc"),
   ("list files", "ls -la"),
   ("ping google", "ping -c 4 google.com")]

/-- The no-mapping fallback command (line 257). -/
def NO_MAPPING_CMD : String := "echo 'No known mapping; please refine your request.'"

/-- `rule_based_translate` (lines 243-257): lowercase the stripped prompt,
test each rule key for containment in declared order, first match wins, fall
back to the literal echo command. -/
def rule_based_translate (prompt : String) : String :=
  let low := pyLower (pyStrip prompt)
  match RULES.find? (fun kv => strContains low kv.1) with
  | some kv => kv.2
  | none => NO_MAPPING_CMD

/-- The external model capability (spec §6), covering `ensure_model_loaded`
plus the `_LLM(...)` call in `llm_translate` (lines 209-236): it either raises
(model unavailable, model file missing, generation failure) or yields the raw
completion text `out.choices[0].text or ""`. -/
abbrev LlmOracle := String → Except String String

def headIsBacktick (cs : List Char) : Bool :=
  match cs with
  | c :: _ => c == Char.ofNat 96
  | [] => false

def lastIsBacktick (cs : List Char) : Bool :=
  match cs.getLast? with
  | some c => c == Char.ofNat 96
  | none => false

/-- `llm_translate` (lines 224-240): strip the completion; if it starts and
ends with a backtick, take `cmd[1:-1]` and strip again. -/
def llm_translate (oracle : LlmOracle) (prompt : String) : Except String String :=
  match oracle prompt with
  | Except.error e => Except.error e
  | Except.ok raw =>
    let cmd := pyStrip raw
    Except.ok
      (if headIsBacktick cmd.toList && lastIsBacktick cmd.toList then
        pyStrip (String.mk ((cmd.toList.drop 1).dropLast))
      else cmd)

/-- `translate` (lines 260-269): empty/whitespace-only prompt yields `""`;
with llama available try the model and fall back to the rules on any
exception; otherwise go straight to the rules.  The source returns only the
command string. -/
def translate (llamaAvailable : Bool) (oracle : LlmOracle) (prompt : String) : String :=
  if pyStrip prompt = "" then ""
  else if llamaAvailable then
    match llm_translate oracle prompt with
    | Except.ok cmd => cmd
    | Except.error _ => rule_based_translate prompt
  else rule_based_translate prompt

/-- `translate` instrumented with the ghost observation of which strategy
(if any) produced the command; its first component coincides with
`translate` (see `translateTraced_fst`). -/
def translateTraced (llamaAvailable : Bool) (oracle : LlmOracle) (prompt : String) :
    String × Option Strategy :=
  if pyStrip prompt = "" then ("", none)
  else if llamaAvailable then
    match llm_translate oracle prompt with
    | Except.ok cmd => (cmd, some Strategy.Model)
    | Except.error _ => (rule_based_translate prompt, some Strategy.RuleBased)
  else (rule_based_translate prompt, some Strategy.RuleBased)

/-! ## History logging (lines 342-346, 449-458) -/

/-- A JSON scalar as used by the history record. -/
inductive JVal
  | str (v : String)
  | int (v : Int)
deriving DecidableEq

/-- The history record built in `on_done` (lines 453-458): the exact dict
literal, in key order.  There is no `strategy` key in the source. -/
def mkLogEntry (time prompt command : String) (exit_code : Int) :
    List (String × JVal) :=
  [("time", JVal.str time), ("prompt", JVal.str prompt),
   ("command", JVal.str command), ("exit_code", JVal.int exit_code)]

/-- The observable log store: per-path lists of appended records, plus
whether the storage is writable (an unwritable store makes `open`/`write`
raise, e.g. `PermissionError`). -/
structure FS where
  files : List (String × List (List (String × JVal)))
  writable : Bool
deriving DecidableEq

def fsAppend :
    List (String × List (List (String × JVal))) → String → List (String × JVal) →
      List (String × List (List (String × JVal)))
  | [], path, r => [(path, [r])]
  | (p, rs) :: rest, path, r =>
    if p = path then (p, rs ++ [r]) :: rest else (p, rs) :: fsAppend rest path r

/-- `log_entry` (lines 342-346): open the day-keyed history file for append
and write one record.  The source contains no `try`/`except` around the open
or the write, so a persistence failure propagates to the caller as an
exception (modelled as `Except.error`). -/
def log_entry (fs : FS) (date : String) (entry : List (String × JVal)) :
    Except String FS :=
  if fs.writable then
    Except.ok { fs with files := fsAppend fs.files ("history_" ++ date ++ ".jsonl") entry }
  else Except.error "PermissionError: cannot open history file for append"

/-! ## Runner (lines 275-337)

The worker `Runner._worker` is a straight-line thread body; we embed it as a
function of the observable behaviour of the spawned process:

* `spawn`: does `subprocess.Popen` succeed (line 305) or raise;
* `events`: the successive results of the line-reading loop (line 315) —
  each iteration either yields a line, tagged with the elapsed wall-clock
  time `time.time() - start` observed at line 319 after it is pushed, or
  raises a stream-read error;
* `wait`: the outcome of `proc.wait(timeout=5)` (line 325) — the process's
  real exit code, a `TimeoutExpired` hang, or another exception.

The externally visible cancellation flag `self._cancel` is the function
`extFlag`, giving the value read at line 316 before the i-th event's line is
processed (the flag is write-once: `threading.Event` is only ever `set`). -/

inductive StreamEvent
  | line (elapsed : Nat) (text : String)
  | readErr (msg : String)
deriving DecidableEq

inductive WaitOutcome
  | exits (code : Int)
  | hangs
  | raisesErr (msg : String)
deriving DecidableEq

structure ProcEnv where
  spawn : Except String Unit
  events : List StreamEvent
  wait : WaitOutcome

/-- The diagnostic pushed at lines 320-322. -/
def TIMEOUT_NOTICE : String := "\n[!] Timeout reached. Terminating...\n"

/-- The diagnostic pushed at lines 328-330. -/
def HANG_NOTICE : String := "\n[!] Process hang; killed.\n"

/-- The diagnostic pushed at lines 334-336 (the f-string with the exception
text). -/
def errNotice (e : String) : String := "\n[!] Error: " ++ e ++ "\n"

/-- Result of the streaming loop (lines 315-324): the chunks pushed to
`output_q`, whether the timeout branch fired (push notice, `self.cancel()`,
break), and a pending stream-read exception if one was raised. -/
structure StreamRes where
  chunks : List String
  timedOut : Bool
  err : Option String
deriving DecidableEq

/-- The `for line in self.proc.stdout` loop (lines 315-324).  Each iteration:
the read either raises (propagates out of the loop) or yields a line; then
the cancel flag is checked (break without pushing); then the line is pushed;
then the elapsed time is compared with the timeout (push notice, cancel,
break). -/
def streamLoop (timeout : Nat) (extFlag : Nat → Bool) :
    List StreamEvent → Nat → StreamRes
  | [], _ => ⟨[], false, none⟩
  | StreamEvent.readErr m :: _, _ => ⟨[], false, some m⟩
  | StreamEvent.line el txt :: rest, i =>
    if extFlag i then ⟨[], false, none⟩
    else if el > timeout then ⟨[txt, TIMEOUT_NOTICE], true, none⟩
    else
      let r := streamLoop timeout extFlag rest (i + 1)
      ⟨txt :: r.chunks, r.timedOut, r.err⟩

/-- Everything the worker observably does: the chunks pushed to `output_q`
in order, the `on_done` invocations in order, and how many times
`self.cancel()` was invoked by the worker itself (timeout branch line 323,
hang branch line 331). -/
structure WorkerResult where
  sink : List String
  doneCalls : List Int
  cancels : Nat
deriving DecidableEq

/-- Lines 325-337 after the streaming loop: a pending stream exception goes
to the generic handler (error chunk, `on_done(-2)`); otherwise
`proc.wait(timeout=5)` either returns the real code (`on_done(code)`),
raises `TimeoutExpired` (hang chunk, `self.cancel()`, `on_done(-1)`), or
raises something else (error chunk, `on_done(-2)`). -/
def finishRun (s : StreamRes) (wait : WaitOutcome) : WorkerResult :=
  match s.err with
  | some m => ⟨s.chunks ++ [errNotice m], [-2], if s.timedOut then 1 else 0⟩
  | none =>
    match wait with
    | WaitOutcome.exits code => ⟨s.chunks, [code], if s.timedOut then 1 else 0⟩
    | WaitOutcome.hangs =>
      ⟨s.chunks ++ [HANG_NOTICE], [-1], (if s.timedOut then 1 else 0) + 1⟩
    | WaitOutcome.raisesErr m =>
      ⟨s.chunks ++ [errNotice m], [-2], if s.timedOut then 1 else 0⟩

/-- `Runner._worker` (lines 301-337): a `Popen` failure is caught by the
generic handler (error chunk, `on_done(-2)`); otherwise stream, then finish. -/
def worker (timeout : Nat) (extFlag : Nat → Bool) (env : ProcEnv) : WorkerResult :=
  match env.spawn with
  | Except.error e => ⟨[errNotice e], [-2], 0⟩
  | Except.ok _ => finishRun (streamLoop timeout extFlag env.events 0) env.wait

/-- The exit code `on_done` receives as a function of the wait outcome
(lines 325-337). -/
def waitCode : WaitOutcome → Int
  | WaitOutcome.exits c => c
  | WaitOutcome.hangs => -1
  | WaitOutcome.raisesErr _ => -2

/-- The persistent runner-level cancellation state: `self._cancel` is a
`threading.Event` created in `__init__` (line 281) and never cleared. -/
structure RunnerState where
  cancelFlag : Bool
deriving DecidableEq

/-- `Runner.cancel` (lines 287-299) invoked while no process is live
(`self.proc` is `None`, or `poll()` reports the process finished): the guard
at line 289 fails, so the only effect is `self._cancel.set()`. -/
def cancel_idle (st : RunnerState) : RunnerState := { st with cancelFlag := true }

/-- A later `run_async` on the same runner: the worker reads the persistent
`_cancel` event, so with no new `cancel()` during the run the flag it
observes at every check is the state's flag. -/
def runWith (st : RunnerState) (timeout : Nat) (env : ProcEnv) : WorkerResult :=
  worker timeout (fun _ => st.cancelFlag) env

/-! ## Sanity lemmas -/

/-- The instrumented dispatcher projects onto the source `translate`. -/
theorem translateTraced_fst (avail : Bool) (oracle : LlmOracle) (p : String) :
    (translateTraced avail oracle p).1 = translate avail oracle p := by
  unfold translateTraced translate
  by_cases h : pyStrip p = ""
  · rw [if_pos h, if_pos h]
  · rw [if_neg h, if_neg h]
    cases avail with
    | false => simp
    | true =>
      simp only [if_true]
      cases hl : llm_translate oracle p <;> simp

example : rule_based_translate "list files" = "ls -la" := by decide

example : rule_based_translate "Please install VLC now" = "sudo apt install -y vlc" := by decide

example : rule_based_translate "do something obscure" = NO_MAPPING_CMD := by decide

/-- Every command in the rule table is non-empty. -/
theorem rule_values_nonempty : ∀ kv ∈ RULES, kv.2 ≠ "" := by decide

/-- The rule-based strategy never returns an empty command. -/
theorem rule_based_translate_ne_empty (p : String) : rule_based_translate p ≠ "" := by
  unfold rule_based_translate
  simp only []
  cases hf : RULES.find? (fun kv => strContains (pyLower (pyStrip p)) kv.1) with
  | none => simp [NO_MAPPING_CMD]
  | some kv =>
    simp only []
    exact rule_values_nonempty kv (List.mem_of_find?_eq_some hf)

/-- A first-match characterisation of `List.find?`. -/
theorem find?_first {α : Type} (q : α → Bool) :
    ∀ (l : List α) (i : Nat) (h : i < l.length),
      q (l.get ⟨i, h⟩) = true →
      (∀ j (hj : j < i), q (l.get ⟨j, Nat.lt_trans hj h⟩) = false) →
      l.find? q = some (l.get ⟨i, h⟩) := by
  intro l
  induction l with
  | nil => intro i h; exact absurd h (Nat.not_lt_zero i)
  | cons a t ih =>
    intro i h hq hprev
    cases i with
    | zero =>
      exact List.find?_cons_of_pos t hq
    | succ n =>
      have ha : q a = false := hprev 0 (Nat.succ_pos n)
      rw [List.find?_cons_of_neg t (by simp [ha])]
      exact ih n (Nat.lt_of_succ_lt_succ h) hq
        (fun j hj => hprev (j + 1) (Nat.succ_lt_succ hj))

/-- If the streaming loop took the timeout branch, the timeout notice is the
last pushed chunk and no read exception is pending. -/
theorem streamLoop_timedOut_shape (timeout : Nat) (f : Nat → Bool) :
    ∀ (events : List StreamEvent) (i : Nat),
      (streamLoop timeout f events i).timedOut = true →
      (∃ pre, (streamLoop timeout f events i).chunks = pre ++ [TIMEOUT_NOTICE]) ∧
        (streamLoop timeout f events i).err = none := by
  intro events
  induction events with
  | nil => intro i h; simp [streamLoop] at h
  | cons e rest ih =>
    intro i h
    cases e with
    | readErr m => simp [streamLoop] at h
    | line el txt =>
      cases hf : f i with
      | true => simp [streamLoop, hf] at h
      | false =>
        by_cases ht : el > timeout
        · simp [streamLoop, hf, ht]
          exact ⟨[txt], rfl⟩
        · simp only [streamLoop, hf, Bool.false_eq_true, if_false, ht, if_neg ht] at h ⊢
          obtain ⟨⟨pre, hp⟩, he⟩ := ih (i + 1) h
          exact ⟨⟨txt :: pre, by simp [hp]⟩, he⟩

/-- The timeout branch can only fire on a line whose observed elapsed time
exceeds the timeout. -/
theorem streamLoop_timedOut_mem (timeout : Nat) (f : Nat → Bool) :
    ∀ (events : List StreamEvent) (i : Nat),
      (streamLoop timeout f events i).timedOut = true →
      ∃ el s, StreamEvent.line el s ∈ events ∧ timeout < el := by
  intro events
  induction events with
  | nil => intro i h; simp [streamLoop] at h
  | cons e rest ih =>
    intro i h
    cases e with
    | readErr m => simp [streamLoop] at h
    | line el txt =>
      cases hf : f i with
      | true => simp [streamLoop, hf] at h
      | false =>
        by_cases ht : el > timeout
        · exact ⟨el, txt, List.mem_cons_self _ _, ht⟩
        · simp only [streamLoop, hf, Bool.false_eq_true, if_false, ht, if_neg ht] at h
          obtain ⟨el2, s2, hmem, hgt⟩ := ih (i + 1) h
          exact ⟨el2, s2, List.mem_cons_of_mem _ hmem, hgt⟩

/-- `finishRun` always reports exactly one `on_done` invocation. -/
theorem finishRun_done_length (s : StreamRes) (w : WaitOutcome) :
    (finishRun s w).doneCalls.length = 1 := by
  rcases s with ⟨ch, tOut, err⟩
  cases err <;> cases w <;> rfl

/-! ## Claims -/

/-- Claim C1, counterexample: the history record built by `on_done`
(lines 453-458) for the concrete execution of prompt `list files` has no
`strategy` field at all, so the strategy tag is not persisted. -/
theorem history_record_no_strategy_counterexample :
    (mkLogEntry "2026-10-12T10:00:00" "list files" "ls -la" 0).lookup "strategy"
      = none := by decide

/-- Claim C1, amended: `translate` returns only the command string — no
strategy tag — and the persisted history record carries exactly the fields
`time`, `prompt`, `command`, `exit_code`; in particular no `strategy` key. -/
theorem history_record_fields (t p c : String) (e : Int) :
    (mkLogEntry t p c e).map Prod.fst = ["time", "prompt", "command", "exit_code"]
      ∧ (mkLogEntry t p c e).lookup "strategy" = none := by
  constructor
  · rfl
  · rfl

/-- Claim C2: for every process behaviour, external cancel-flag history and
timeout, the worker invokes `on_done` exactly once — on the normal path, the
cancelled path, the timeout path, the hang path, and every exception path. -/
theorem worker_on_done_exactly_once (timeout : Nat) (extFlag : Nat → Bool)
    (env : ProcEnv) : (worker timeout extFlag env).doneCalls.length = 1 := by
  unfold worker
  cases env.spawn with
  | error e => rfl
  | ok u => exact finishRun_done_length _ _

/-- Claim C3, counterexample: a run whose only line arrives after the
timeout pushes the timeout notice and terminates the process, but when the
terminated process exits within the 5-second grace wait, `proc.wait` returns
its real exit code (here `-15`, death by SIGTERM) and `on_done` receives
`-15`, not the sentinel `-1`. -/
theorem timeout_then_real_exit_code_counterexample :
    (worker 600 (fun _ => false)
        ⟨Except.ok (), [StreamEvent.line 601 "x\n"], WaitOutcome.exits (-15)⟩).sink
      = ["x\n", TIMEOUT_NOTICE]
    ∧ (worker 600 (fun _ => false)
        ⟨Except.ok (), [StreamEvent.line 601 "x\n"], WaitOutcome.exits (-15)⟩).doneCalls
      = [-15]
    ∧ (worker 600 (fun _ => false)
        ⟨Except.ok (), [StreamEvent.line 601 "x\n"], WaitOutcome.exits (-15)⟩).doneCalls
      ≠ [-1] := by decide

/-- Claim C3, amended: on a timed-out run the worker pushes the diagnostic
timeout chunk, invokes `cancel()` (graceful terminate, then kill after
0.7 s), and then calls `on_done` with the code the 5-second grace wait
yields: the process's real wait exit code when it exits in time, the
sentinel `-1` only when it is still alive afterwards (and `-2` if the wait
itself raises another exception). -/
theorem timeout_pushes_notice_then_cancel_then_wait_code
    (timeout : Nat) (extFlag : Nat → Bool) (env : ProcEnv)
    (hspawn : env.spawn = Except.ok ())
    (htime : (streamLoop timeout extFlag env.events 0).timedOut = true) :
    (∃ pre extra,
        (worker timeout extFlag env).sink = pre ++ TIMEOUT_NOTICE :: extra)
    ∧ (worker timeout extFlag env).doneCalls = [waitCode env.wait]
    ∧ 1 ≤ (worker timeout extFlag env).cancels := by
  obtain ⟨⟨pre, hpre⟩, herr⟩ := streamLoop_timedOut_shape timeout extFlag env.events 0 htime
  unfold worker
  rw [hspawn]
  unfold finishRun
  rw [herr]
  cases hw : env.wait with
  | exits c =>
    refine ⟨⟨pre, [], by simp [hpre]⟩, ?_, ?_⟩
    · simp [waitCode]
    · simp [htime]
  | hangs =>
    refine ⟨⟨pre, [HANG_NOTICE], by simp [hpre]⟩, ?_, ?_⟩
    · simp [waitCode]
    · simp [htime]
  | raisesErr m =>
    refine ⟨⟨pre, [errNotice m], by simp [hpre]⟩, ?_, ?_⟩
    · simp [waitCode]
    · simp [htime]

/-- Claim C3, witness: concrete timed-out run whose process then hangs. -/
theorem timeout_pushes_notice_then_cancel_then_wait_code_witness :
    (∃ pre extra,
        (worker 600 (fun _ => false)
            ⟨Except.ok (), [StreamEvent.line 700 "a\n"], WaitOutcome.hangs⟩).sink
          = pre ++ TIMEOUT_NOTICE :: extra)
    ∧ (worker 600 (fun _ => false)
          ⟨Except.ok (), [StreamEvent.line 700 "a\n"], WaitOutcome.hangs⟩).doneCalls
        = [waitCode WaitOutcome.hangs]
    ∧ 1 ≤ (worker 600 (fun _ => false)
          ⟨Except.ok (), [StreamEvent.line 700 "a\n"], WaitOutcome.hangs⟩).cancels :=
  timeout_pushes_notice_then_cancel_then_wait_code 600 (fun _ => false)
    ⟨Except.ok (), [StreamEvent.line 700 "a\n"], WaitOutcome.hangs⟩ rfl (by decide)

/-- Claim C4 (code bug): `self._cancel` is never cleared, so a `cancel()`
issued while no run is active (line 288 sets the event; the guard at
line 289 fails) visibly alters the next run on the same runner — its
streaming loop sees the flag at the first check (line 316) and breaks before
pushing any output.  The same process behaviour without the prior `cancel()`
delivers its line.  `on_done` still fires once with the wait code in both
cases. -/
theorem sticky_cancel_suppresses_next_run :
    (runWith (cancel_idle ⟨false⟩) 600
        ⟨Except.ok (), [StreamEvent.line 0 "hello\n"], WaitOutcome.exits 0⟩).sink = []
    ∧ (runWith ⟨false⟩ 600
        ⟨Except.ok (), [StreamEvent.line 0 "hello\n"], WaitOutcome.exits 0⟩).sink
      = ["hello\n"]
    ∧ (runWith (cancel_idle ⟨false⟩) 600
        ⟨Except.ok (), [StreamEvent.line 0 "hello\n"], WaitOutcome.exits 0⟩).doneCalls
      = [0]
    ∧ (runWith ⟨false⟩ 600
        ⟨Except.ok (), [StreamEvent.line 0 "hello\n"], WaitOutcome.exits 0⟩).doneCalls
      = [0] := by decide

/-- Claim C5: a process that hangs past the 5-second grace wait yields
`on_done(-1)` after the hang diagnostic is pushed; a spawn failure, a
stream-read failure, or any other wait exception yields `on_done(-2)` after
an error diagnostic is pushed; in every case the worker returns normally
(the failure is consumed, never re-raised to the caller). -/
theorem abnormal_paths_sentinels_and_diagnostics
    (timeout : Nat) (extFlag : Nat → Bool) (env : ProcEnv) :
    (env.spawn = Except.ok () →
      (streamLoop timeout extFlag env.events 0).err = none →
      env.wait = WaitOutcome.hangs →
      (worker timeout extFlag env).doneCalls = [-1]
      ∧ (worker timeout extFlag env).sink
          = (streamLoop timeout extFlag env.events 0).chunks ++ [HANG_NOTICE])
    ∧ (∀ m, env.spawn = Except.error m →
      (worker timeout extFlag env).doneCalls = [-2]
      ∧ (worker timeout extFlag env).sink = [errNotice m])
    ∧ (∀ m, env.spawn = Except.ok () →
      (streamLoop timeout extFlag env.events 0).err = some m →
      (worker timeout extFlag env).doneCalls = [-2]
      ∧ (worker timeout extFlag env).sink
          = (streamLoop timeout extFlag env.events 0).chunks ++ [errNotice m])
    ∧ (∀ m, env.spawn = Except.ok () →
      (streamLoop timeout extFlag env.events 0).err = none →
      env.wait = WaitOutcome.raisesErr m →
      (worker timeout extFlag env).doneCalls = [-2]
      ∧ (worker timeout extFlag env).sink
          = (streamLoop timeout extFlag env.events 0).chunks ++ [errNotice m]) := by
  refine ⟨?_, ?_, ?_, ?_⟩
  · intro hs he hw
    unfold worker finishRun
    rw [hs, he, hw]
    exact ⟨rfl, rfl⟩
  · intro m hs
    unfold worker
    rw [hs]
    exact ⟨rfl, rfl⟩
  · intro m hs he
    unfold worker finishRun
    rw [hs, he]
    exact ⟨rfl, rfl⟩
  · intro m hs he hw
    unfold worker finishRun
    rw [hs, he, hw]
    exact ⟨rfl, rfl⟩

/-- Claim C5, witness: a concrete hang after the grace wait. -/
theorem abnormal_paths_sentinels_and_diagnostics_witness :
    (worker 600 (fun _ => false) ⟨Except.ok (), [], WaitOutcome.hangs⟩).doneCalls = [-1]
    ∧ (worker 600 (fun _ => false) ⟨Except.ok (), [], WaitOutcome.hangs⟩).sink
        = (streamLoop 600 (fun _ => false) [] 0).chunks ++ [HANG_NOTICE] :=
  (abnormal_paths_sentinels_and_diagnostics 600 (fun _ => false)
      ⟨Except.ok (), [], WaitOutcome.hangs⟩).1 rfl rfl rfl

/-- Claim C6, counterexample: with the model available and the model
returning an empty completion (which `llm_translate` passes through without
raising), the non-empty prompt `list files` dispatches to an empty command
with strategy `Model`. -/
theorem model_empty_command_counterexample :
    translateTraced true (fun _ => Except.ok "") "list files"
      = ("", some Strategy.Model) := by decide

/-- Claim C6, amended: for every non-empty prompt the dispatcher commits to
exactly one strategy, `Model` or `RuleBased`; a `RuleBased` command is
always non-empty, but a `Model` command is the model's stripped completion
and may be empty. -/
theorem dispatch_strategy_total (avail : Bool) (oracle : LlmOracle) (p : String)
    (h : pyStrip p ≠ "") :
    ∃ s, (translateTraced avail oracle p).2 = some s
      ∧ (s = Strategy.Model ∨ s = Strategy.RuleBased)
      ∧ (s = Strategy.RuleBased → (translateTraced avail oracle p).1 ≠ "") := by
  unfold translateTraced
  rw [if_neg h]
  cases avail with
  | false =>
    refine ⟨Strategy.RuleBased, by simp, Or.inr rfl, ?_⟩
    intro _
    simpa using rule_based_translate_ne_empty p
  | true =>
    simp only [if_true]
    cases hl : llm_translate oracle p with
    | ok cmd =>
      refine ⟨Strategy.Model, by simp, Or.inl rfl, ?_⟩
      intro habs
      exact absurd habs (by decide)
    | error e =>
      refine ⟨Strategy.RuleBased, by simp, Or.inr rfl, ?_⟩
      intro _
      simpa using rule_based_translate_ne_empty p

/-- Claim C6, witness: the rule-based path on the concrete prompt
`list files`. -/
theorem dispatch_strategy_total_witness :
    ∃ s, (translateTraced false (fun _ => Except.ok "") "list files").2 = some s
      ∧ (s = Strategy.Model ∨ s = Strategy.RuleBased)
      ∧ (s = Strategy.RuleBased →
          (translateTraced false (fun _ => Except.ok "") "list files").1 ≠ "") :=
  dispatch_strategy_total false (fun _ => Except.ok "") "list files" (by decide)

/-- Claim C7: rule-based translation tests the keys of the declared table by
substring containment in the lowercased stripped prompt, in declared order;
the first matching key's command is returned, and with no match the literal
no-mapping echo is returned.  (Determinism is immediate: the embedding is a
pure function of the prompt.) -/
theorem rule_based_first_match_wins (p : String) :
    (∀ i (h : i < RULES.length),
        strContains (pyLower (pyStrip p)) (RULES.get ⟨i, h⟩).1 = true →
        (∀ j (hj : j < i),
          strContains (pyLower (pyStrip p)) (RULES.get ⟨j, Nat.lt_trans hj h⟩).1 = false) →
        rule_based_translate p = (RULES.get ⟨i, h⟩).2)
    ∧ ((∀ kv ∈ RULES, strContains (pyLower (pyStrip p)) kv.1 = false) →
        rule_based_translate p = NO_MAPPING_CMD) := by
  constructor
  · intro i h hq hprev
    unfold rule_based_translate
    simp only []
    rw [find?_first (fun kv => strContains (pyLower (pyStrip p)) kv.1) RULES i h hq hprev]
  · intro hall
    unfold rule_based_translate
    simp only []
    rw [List.find?_eq_none.mpr (fun kv hm => by simp [hall kv hm])]

/-- Claim C7, witness: `list files` matches only the sixth declared key and
returns its command. -/
theorem rule_based_first_match_wins_witness :
    rule_based_translate "list files" = (RULES.get ⟨5, by decide⟩).2 :=
  (rule_based_first_match_wins "list files").1 5 (by decide) (by decide) (by decide)

/-- Claim C8: an empty or whitespace-only prompt dispatches to the empty
command with no strategy exercised (line 261-262 returns before either
strategy is reached). -/
theorem empty_prompt_yields_empty_and_no_strategy
    (avail : Bool) (oracle : LlmOracle) (p : String) (h : pyStrip p = "") :
    translateTraced avail oracle p = ("", none) := by
  unfold translateTraced
  rw [if_pos h]

/-- Claim C8, witness: whitespace-only prompt with the model available. -/
theorem empty_prompt_yields_empty_and_no_strategy_witness :
    translateTraced true (fun _ => Except.ok "ls") " \t " = ("", none) :=
  empty_prompt_yields_empty_and_no_strategy true (fun _ => Except.ok "ls") " \t "
    (by decide)

/-- Claim C9, counterexample: with unwritable storage, `log_entry` raises to
its caller (`Except.error`) instead of handling the failure locally — the
source has no handler around the open/write (lines 342-346). -/
theorem log_entry_unwritable_error_counterexample :
    log_entry ⟨[], false⟩ "2026-10-12" (mkLogEntry "2026-10-12T10:00:00" "ip" "ip a" 0)
      = Except.error "PermissionError: cannot open history file for append" := rfl

/-- Claim C9, amended: `log_entry` performs the append with no local error
handling: on writable storage it appends the record to the day-keyed file
and succeeds, and on unwritable storage the persistence failure propagates
to the caller (in the GUI it escapes from `on_done` into the worker
thread). -/
theorem log_entry_no_local_handler (fs : FS) (date : String)
    (entry : List (String × JVal)) :
    (fs.writable = false →
      log_entry fs date entry
        = Except.error "PermissionError: cannot open history file for append")
    ∧ (fs.writable = true →
      log_entry fs date entry
        = Except.ok
            ⟨fsAppend fs.files ("history_" ++ date ++ ".jsonl") entry, true⟩) := by
  rcases fs with ⟨files, w⟩
  constructor
  · intro h
    simp only at h
    rw [h] at *
    simp [log_entry]
  · intro h
    simp only at h
    rw [h] at *
    simp [log_entry]

/-- Claim C9, witness: concrete unwritable storage. -/
theorem log_entry_no_local_handler_witness :
    log_entry ⟨[], false⟩ "2026-01-01" []
      = Except.error "PermissionError: cannot open history file for append" :=
  (log_entry_no_local_handler ⟨[], false⟩ "2026-01-01" []).1 rfl

/-- Claim C10: the elapsed-time check sits inside the streaming loop body,
immediately after a line is pushed, so the timeout branch can fire only on a
line observed past the timeout; a run all of whose lines arrive within the
timeout never pushes the timeout notice and never invokes the worker-side
`cancel()`, however late the process exits — the loop just blocks on the
stream until the process closes it. -/
theorem timeout_checked_only_after_line_output
    (timeout : Nat) (extFlag : Nat → Bool) (env : ProcEnv) (code : Int) :
    ((streamLoop timeout extFlag env.events 0).timedOut = true →
      ∃ el s, StreamEvent.line el s ∈ env.events ∧ timeout < el)
    ∧ ((∀ el s, StreamEvent.line el s ∈ env.events → el ≤ timeout) →
      env.wait = WaitOutcome.exits code →
      (streamLoop timeout extFlag env.events 0).timedOut = false
      ∧ (worker timeout extFlag env).cancels = 0) := by
  constructor
  · intro h
    exact streamLoop_timedOut_mem timeout extFlag env.events 0 h
  · intro hall hw
    have hto : (streamLoop timeout extFlag env.events 0).timedOut = false := by
      cases h : (streamLoop timeout extFlag env.events 0).timedOut with
      | false => rfl
      | true =>
        obtain ⟨el, s, hmem, hgt⟩ := streamLoop_timedOut_mem timeout extFlag env.events 0 h
        exact absurd (hall el s hmem) (by omega)
    refine ⟨hto, ?_⟩
    unfold worker
    cases hs : env.spawn with
    | error e => rfl
    | ok u =>
      unfold finishRun
      rw [hw]
      cases he : (streamLoop timeout extFlag env.events 0).err <;> simp [hto]

/-- Claim C10, witness: one line well within the timeout, normal exit. -/
theorem timeout_checked_only_after_line_output_witness :
    (streamLoop 600 (fun _ => false) [StreamEvent.line 5 "a\n"] 0).timedOut = false
    ∧ (worker 600 (fun _ => false)
        ⟨Except.ok (), [StreamEvent.line 5 "a\n"], WaitOutcome.exits 0⟩).cancels = 0 :=
  (timeout_checked_only_after_line_output 600 (fun _ => false)
      ⟨Except.ok (), [StreamEvent.line 5 "a\n"], WaitOutcome.exits 0⟩ 0).2
    (by
      intro el s hm
      simp only [List.mem_singleton, StreamEvent.line.injEq] at hm
      omega)
    rfl

end SmartShell
